import Mathlib

/-!
Shallow embedding of the psmithuk/xlsx spreadsheet writer.

The definitions below are translated from the Go sources of the repository.
Unless a namespace says otherwise they come from `src/xlsx.go`, which is the
most capable revision (streaming writer, multiple sheets, colspan/merge and
inline strings).  The namespace `part000` holds the superseded revision of
`Sheet.AppendRow` found in `src/unnamed/part_000`, which (unlike the revision
in `src/xlsx.go`) resolves Datetime cell values at append time.

Modelling conventions:
 * Go `uint64` arithmetic is `Nat` arithmetic reduced modulo `2 ^ 64` at every
   operation where the Go code performs a 64-bit operation (`w64`, `u64sub`).
 * Go `time.Time` (always used in UTC here) is `GoTime`, a count of
   nanoseconds since the Unix epoch; `time.Date` is `dateUTC`, built on the
   standard civil-calendar day-count algorithm; `time.Time.Sub` is `goSubNs`,
   which saturates at the `int64` bounds exactly as Go durations do.
 * `time.Parse(time.RFC3339, _)` is an external library routine; functions
   that call it take an explicit `parse : String -> Option GoTime` argument
   and a parse failure is represented by `none`.
 * Go's `float64` in `OADate` is modelled by exact fraction arithmetic: the
   value `v = -epoch.Sub(d) / nsPerDay` is carried as the integer numerator
   over the fixed denominator `nsPerDay`.  At every input the claims
   evaluate, the Go float computation is either exact (the nanosecond counts
   involved and their day quotients are representable in 53-bit
   significands) or more than 1e-6 away from a 6-decimal rounding boundary,
   so the exact model produces the same rendered strings.
 * Functions that mutate a receiver in Go take and return the state
   explicitly; writes to an `io.Writer` are returned as strings.  A Go
   `error` return is `GoResult.error`, a Go `panic` is `GoResult.panicked`;
   in this pure model the archive and template collaborators never fail, so
   the only error sources are the ones in the repository's own code.
-/

namespace Xlsx

/-- Reduction modulo 2^64, the semantics of Go `uint64` arithmetic. -/
def w64 (n : Nat) : Nat := n % 18446744073709551616

/-- Go `uint64` subtraction `a - b` (wrapping), for `b` already reduced. -/
def u64sub (a b : Nat) : Nat := w64 (a + (18446744073709551616 - w64 b))

/-- Outcome of a Go call: normal value, returned `error`, or `panic`. -/
inductive GoResult (α : Type) where
  | ok (a : α)
  | error (msg : String)
  | panicked (msg : String)
deriving DecidableEq, Repr

/-- Cell types, from the `CellType` constants in `src/xlsx.go`. -/
inductive CellType where
  | CellTypeNumber
  | CellTypeString
  | CellTypeDatetime
  | CellTypeInlineString
deriving DecidableEq, Repr

export CellType (CellTypeNumber CellTypeString CellTypeDatetime CellTypeInlineString)

/-- XLSX spreadsheet cell (`Cell` in `src/xlsx.go`); `colspan` is a `uint64`. -/
structure Cell where
  type : CellType
  value : String
  colspan : Nat
deriving DecidableEq, Repr

/-- XLSX spreadsheet row (`Row` in `src/xlsx.go`). -/
structure Row where
  cells : List Cell
deriving DecidableEq, Repr

/-- XLSX spreadsheet column (`Column` in `src/xlsx.go`). -/
structure Column where
  name : String
  width : Nat
deriving DecidableEq, Repr

/-- Go `html.EscapeString` escapes exactly these five characters. -/
def escapeChar (c : Char) : String :=
  if c = '&' then "&amp;"
  else if c = Char.ofNat 39 then "&#39;"
  else if c = '<' then "&lt;"
  else if c = '>' then "&gt;"
  else if c = Char.ofNat 34 then "&#34;"
  else String.singleton c

/-- Go `html.EscapeString`. -/
def escapeString (s : String) : String :=
  String.join (s.toList.map escapeChar)

/-- Loop body of `colName` in `src/xlsx.go`: while `n > 0`, decrement, prepend
the letter for `n % 26`, divide by 26.  The first argument is fuel; the loop
runs at most `n` times since `(n - 1) / 26 < n` for positive `n`, so fuel
equal to the initial value suffices. -/
def colNameLoop : Nat → Nat → String → String
  | 0, _, acc => acc
  | _ + 1, 0, acc => acc
  | fuel + 1, k + 1, acc =>
      colNameLoop fuel (k / 26) (String.singleton (Char.ofNat (65 + k % 26)) ++ acc)

/-- `colName` from `src/xlsx.go`: bijective base-26 column name of a
zero-based `uint64` column number.  The initial `n += 1` is a `uint64`
increment and therefore wraps modulo 2^64. -/
def colName (n : Nat) : String :=
  let m := w64 (n + 1)
  colNameLoop m m ""

/-- `CellIndex` from `src/xlsx.go`: zero-based `(x, y)` to the Excel column
name and the one-based row number (a `uint64`, hence the wrap). -/
def CellIndex (x y : Nat) : String × Nat :=
  (colName x, w64 (y + 1))

/-- Rendering of a cell reference as the writer prints it (`"%s%d"`). -/
def cellAddress (x y : Nat) : String :=
  let p := CellIndex x y
  p.1 ++ toString p.2

/-- A Go `time.Time` in UTC, as nanoseconds since the Unix epoch. -/
structure GoTime where
  ns : Int
deriving DecidableEq, Repr

/-- Days from 1970-01-01 of a proleptic Gregorian civil date (the standard
days-from-civil algorithm used by civil-time libraries, matching Go's
`time.Date` for the in-range dates used here). -/
def daysFromCivil (y m d : Int) : Int :=
  let y2 := if m ≤ 2 then y - 1 else y
  let era := (if 0 ≤ y2 then y2 else y2 - 399).ediv 400
  let yoe := y2 - era * 400
  let doy := (153 * (m + (if 2 < m then -3 else 9)) + 2).ediv 5 + d - 1
  let doe := yoe * 365 + yoe.ediv 4 - yoe.ediv 100 + doy
  era * 146097 + doe - 719468

/-- Go `time.Date(y, m, d, h, mi, s, 0, time.UTC)`. -/
def dateUTC (y m d h mi s : Int) : GoTime :=
  ⟨daysFromCivil y m d * 86400000000000 + (h * 3600 + mi * 60 + s) * 1000000000⟩

/-- Unix seconds of a `GoTime` (floor division, as in Go's internal clock). -/
def GoTime.unixSec (t : GoTime) : Int := t.ns.ediv 1000000000

/-- Second-of-day in UTC. -/
def GoTime.secOfDay (t : GoTime) : Int := t.unixSec.emod 86400

/-- Go `t.Hour()` for a UTC time. -/
def GoTime.hour (t : GoTime) : Int := t.secOfDay.ediv 3600

/-- Go `t.Minute()` for a UTC time. -/
def GoTime.minute (t : GoTime) : Int := (t.secOfDay.emod 3600).ediv 60

/-- Go `t.Second()` for a UTC time. -/
def GoTime.second (t : GoTime) : Int := t.secOfDay.emod 60

/-- Go `a.Sub(b)` on times: the difference in nanoseconds, saturated to the
`int64` range of `time.Duration`. -/
def goSubNs (a b : Int) : Int :=
  let d := a - b
  if d < -9223372036854775808 then -9223372036854775808
  else if 9223372036854775807 < d then 9223372036854775807
  else d

/-- Truncation toward zero of the fraction `a / b` for `b > 0`, the
semantics of Go's `int64(v)` conversion from `float64` (in-range values). -/
def truncFrac (a b : Int) : Int :=
  if 0 ≤ a then ((a.toNat / b.toNat : Nat) : Int)
  else -(((-a).toNat / b.toNat : Nat) : Int)

/-- Round the fraction `a / b` (`b > 0`) to the nearest integer (half toward
positive infinity; no value reached by the claims sits on a tie). -/
def roundFrac (a b : Int) : Int :=
  (2 * a + b).ediv (2 * b)

/-- Left-pad a decimal string to six digits. -/
def pad6 (s : String) : String :=
  String.mk (List.replicate (6 - s.length) '0') ++ s

/-- Rendering of the nonnegative fraction `a / b` with six digits after the
point, the behaviour of Go `fmt.Sprintf("%f", v)` for the values reached
here. -/
def fmtFloat6Core (a b : Int) : String :=
  let n := (roundFrac (a * 1000000) b).toNat
  toString (n / 1000000) ++ "." ++ pad6 (toString (n % 1000000))

/-- Go `fmt.Sprintf("%f", v)` of the fraction `a / b`, including the sign. -/
def fmtFloat6 (a b : Int) : String :=
  if a < 0 then "-" ++ fmtFloat6Core (-a) b else fmtFloat6Core a b

/-- The OLE Automation epoch `time.Date(1899, 12, 30, 0, 0, 0, 0, time.UTC)`
from `OADate` in `src/xlsx.go`. -/
def oaEpoch : GoTime := dateUTC 1899 12 30 0 0 0

/-- Nanoseconds per day (`24 * time.Hour`). -/
def nsPerDay : Int := 86400000000000

/-- `OADate` from `src/xlsx.go`: `v := -1 * float64(epoch.Sub(d)) /
float64(nsPerDay)`, rendered `"%d"` of `int64(v)` when hour, minute and
second are all zero, else `"%f"`. -/
def OADate (d : GoTime) : String :=
  let dur := goSubNs oaEpoch.ns d.ns
  let vNum := -1 * dur
  if d.hour = 0 ∧ d.minute = 0 ∧ d.second = 0 then
    toString (truncFrac vNum nsPerDay)
  else
    fmtFloat6 vNum nsPerDay

/-- Document properties (`DocumentInfo` in `src/xlsx.go`). -/
structure DocumentInfo where
  createdBy : String
  modifiedBy : String
  createdAt : GoTime
  modifiedAt : GoTime
deriving DecidableEq, Repr

/-- The shared-string state of a `Sheet`: the Go map `sharedStringMap`
(modelled as an association list with the map's lookup/insert behaviour)
together with the ordered slice `sharedStrings`. -/
structure SST where
  map : List (String × Nat)
  strings : List String
deriving DecidableEq, Repr

/-- The empty shared-string state made by `NewSheet` / `NewSheetWithColumns`. -/
def emptySST : SST := ⟨[], []⟩

/-- Lookup in the Go map `sharedStringMap`. -/
def mapLookup : List (String × Nat) → String → Option Nat
  | [], _ => none
  | (k, v) :: rest, s => if k = s then some v else mapLookup rest s

/-- The interning block of `Sheet.AppendRow` in `src/xlsx.go` (lines
128-133): look the escaped string up; if absent, assign the current length
of `sharedStrings` as its index and append it. -/
def intern (t : SST) (escaped : String) : Nat × SST :=
  match mapLookup t.map escaped with
  | some i => (i, t)
  | none =>
      let i := t.strings.length
      (i, ⟨(escaped, i) :: t.map, t.strings ++ [escaped]⟩)

/-- Sequential interning of a list of (already escaped) strings, returning
the assigned indices in order and the final table. -/
def internSeq (t : SST) : List String → List Nat × SST
  | [] => ([], t)
  | w :: ws =>
      let p := intern t w
      let q := internSeq p.2 ws
      (p.1 :: q.1, q.2)

/-- The table after sequentially interning a list of strings. -/
def internAll (t : SST) (ws : List String) : SST := (internSeq t ws).2

/-- First-seen deduplication: the distinct strings of a list in the order of
their first occurrence, accumulated onto `acc`. -/
def firstSeenAux (acc : List String) : List String → List String
  | [] => acc
  | w :: ws => firstSeenAux (if w ∈ acc then acc else acc ++ [w]) ws

/-- The distinct strings of a list in first-seen order. -/
def firstSeen (ws : List String) : List String := firstSeenAux [] ws

/-- XLSX spreadsheet (`Sheet` in `src/xlsx.go`). -/
structure Sheet where
  title : String
  columns : List Column
  rows : List Row
  sst : SST
  documentInfo : DocumentInfo
deriving DecidableEq, Repr

/-- `Sheet.SharedStrings` from `src/xlsx.go`. -/
def Sheet.SharedStrings (s : Sheet) : List String := s.sst.strings

/-- The body of the cell-processing loop of `Sheet.AppendRow` in
`src/xlsx.go` for one cell: the cell is copied (type and value only — the
copy into the zero-valued `cells` slice drops `Colspan`), and a String cell
is escaped and replaced by its interned index.  This revision performs no
Datetime handling. -/
def appendRowCell (t : SST) (c : Cell) : Cell × SST :=
  if c.type = CellTypeString then
    let p := intern t (escapeString c.value)
    (⟨c.type, toString p.1, 0⟩, p.2)
  else
    (⟨c.type, c.value, 0⟩, t)

/-- The cell-processing loop of `Sheet.AppendRow` in `src/xlsx.go`. -/
def appendRowCells (t : SST) : List Cell → List Cell × SST
  | [] => ([], t)
  | c :: rest =>
      let s := appendRowCell t c
      let q := appendRowCells s.2 rest
      (s.1 :: q.1, q.2)

/-- The error message of the arity check in `Sheet.AppendRow`. -/
def arityErrMsg (got expected : Nat) : String :=
  "the given row has " ++ toString got ++ " cells and " ++ toString expected ++
    " were expected"

/-- `Sheet.AppendRow` from `src/xlsx.go`.  The pair returns the Go `error`
result together with the (possibly updated) receiver. -/
def Sheet.AppendRow (s : Sheet) (r : Row) : GoResult Unit × Sheet :=
  if r.cells.length ≠ s.columns.length then
    (.error (arityErrMsg r.cells.length s.columns.length), s)
  else
    let p := appendRowCells s.sst r.cells
    (.ok (), { s with rows := s.rows ++ [⟨p.1⟩], sst := p.2 })

/-- The `time.Parse` error message (the Go text is produced by the external
`time` package; only its presence matters to the model). -/
def parseErrMsg (v : String) : String := "parsing time " ++ v

/-- Streaming sheet writer state (`SheetWriter` in `src/xlsx.go`).  The
wrapped `io.Writer` is not part of the state: the strings written to it are
returned by the operations. -/
structure SheetWriter where
  currentIndex : Nat
  maxNCols : Nat
  closed : Bool
  mergeCells : String
  mergeCellsCount : Nat
deriving DecidableEq, Repr

/-- A `SheetWriter` as made by `NewSheetWriter`: `&SheetWriter{f, err, 0, 0,
false, "", 0}`. -/
def freshSheetWriter : SheetWriter := ⟨0, 0, false, "", 0⟩

/-- Resolution of a cell's value in `SheetWriter.WriteRows`: Datetime values
are parsed (RFC 3339) and converted with `OADate`, a parse failure being the
returned error; inline strings are XML-escaped; others pass through. -/
def resolveCellValue (parse : String → Option GoTime) (c : Cell) : GoResult String :=
  match c.type with
  | CellTypeDatetime =>
      match parse c.value with
      | some d => .ok (OADate d)
      | none => .error (parseErrMsg c.value)
  | CellTypeInlineString => .ok (escapeString c.value)
  | _ => .ok c.value

/-- The per-type cell markup of `SheetWriter.WriteRows` (the `cellString`
format strings), applied to the cell reference pieces and resolved value. -/
def cellFormat (t : CellType) (x : String) (y : Nat) (v : String) : String :=
  match t with
  | CellTypeString =>
      "<c r=\"" ++ x ++ toString y ++ "\" t=\"s\" s=\"1\"><v>" ++ v ++ "</v></c>"
  | CellTypeInlineString =>
      "<c r=\"" ++ x ++ toString y ++ "\" t=\"inlineStr\"><is><t>" ++ v ++ "</t></is></c>"
  | CellTypeNumber =>
      "<c r=\"" ++ x ++ toString y ++ "\" t=\"n\" s=\"1\"><v>" ++ v ++ "</v></c>"
  | CellTypeDatetime =>
      "<c r=\"" ++ x ++ toString y ++ "\" s=\"2\"><v>" ++ v ++ "</v></c>"

/-- The merge-range record appended to `sw.mergeCells` for a cell whose
colspan exceeds 1 (`<mergeCell ref="X1Y:X2Y"/>`). -/
def mergeCellRecord (x : String) (y : Nat) (x2 : String) : String :=
  "<mergeCell ref=\"" ++ x ++ toString y ++ ":" ++ x2 ++ toString y ++ "\"/>"

/-- The body of the inner cell loop of `SheetWriter.WriteRows` in
`src/xlsx.go` for the cell at batch-local row `i`, column `j`: compute the
cell reference, resolve the value (possibly failing), check the colspan
guard (`c.Colspan < 0`, a `uint64` comparison), record a merge range when
`c.Colspan > 1`, and produce the cell markup. -/
def writeCell (parse : String → Option GoTime) (sw : SheetWriter) (i j : Nat)
    (c : Cell) : GoResult (String × SheetWriter) :=
  let p := CellIndex j (w64 (i + sw.currentIndex))
  match resolveCellValue parse c with
  | .error e => .error e
  | .panicked m => .panicked m
  | .ok v =>
      if c.colspan < 0 then
        .panicked (toString c.colspan ++ " is not a valid colspan")
      else
        .ok (cellFormat c.type p.1 p.2 v,
          if c.colspan > 1 then
            { sw with
              mergeCells := sw.mergeCells ++
                mergeCellRecord p.1 p.2
                  (CellIndex (w64 (j + c.colspan - 1)) (w64 (i + sw.currentIndex))).1,
              mergeCellsCount := sw.mergeCellsCount + 1 }
          else sw)

/-- The cell loop of `SheetWriter.WriteRows` over one row, accumulating the
row buffer `rb`. -/
def writeCellsLoop (parse : String → Option GoTime) (sw : SheetWriter) (i : Nat) :
    Nat → List Cell → GoResult (String × SheetWriter)
  | _, [] => .ok ("", sw)
  | j, c :: rest =>
      match writeCell parse sw i j c with
      | .error e => .error e
      | .panicked m => .panicked m
      | .ok q =>
          match writeCellsLoop parse q.2 i (j + 1) rest with
          | .error e => .error e
          | .panicked m => .panicked m
          | .ok q2 => .ok (q.1 ++ q2.1, q2.2)

/-- The `<row r="N">…</row>` wrapper (`fmt.Sprintf` in `WriteRows`). -/
def mkRowString (r : Nat) (body : String) : String :=
  "<row r=\"" ++ toString r ++ "\">" ++ body ++ "</row>"

/-- The row loop of `SheetWriter.WriteRows`: per row, update `maxNCols`,
render the cells, and emit the wrapped row string (one `io.WriteString` to
the sheet entry per row, collected in order). -/
def writeRowsLoop (parse : String → Option GoTime) :
    SheetWriter → Nat → List Row → GoResult (List String × SheetWriter)
  | sw, _, [] => .ok ([], sw)
  | sw, i, r :: rest =>
      match writeCellsLoop parse
          (if sw.maxNCols < r.cells.length then { sw with maxNCols := r.cells.length }
           else sw) i 0 r.cells with
      | .error e => .error e
      | .panicked m => .panicked m
      | .ok q =>
          match writeRowsLoop parse q.2 (i + 1) rest with
          | .error e => .error e
          | .panicked m => .panicked m
          | .ok q2 =>
              .ok (mkRowString (w64 (w64 (i + q.2.currentIndex) + 1)) q.1 :: q2.1, q2.2)

/-- `SheetWriter.WriteRows` from `src/xlsx.go`: panic when closed, run the
row loop, then advance `currentIndex` by the batch size (`uint64`
addition). -/
def SheetWriter.WriteRows (sw : SheetWriter) (parse : String → Option GoTime)
    (rows : List Row) : GoResult (List String × SheetWriter) :=
  if sw.closed then .panicked "Can not write to closed SheetWriter"
  else
    match writeRowsLoop parse sw 0 rows with
    | .error e => .error e
    | .panicked m => .panicked m
    | .ok q =>
        .ok (q.1, { q.2 with currentIndex := w64 (q.2.currentIndex + rows.length) })

/-- `SheetWriter.Close` from `src/xlsx.go`: panic when already closed, emit
the dimension footer computed from `maxNCols - 1` and `currentIndex - 1`
(`uint64` subtractions), the merge-cell block when any ranges were recorded,
and the closing tag. -/
def SheetWriter.Close (sw : SheetWriter) : GoResult (String × SheetWriter) :=
  if sw.closed then .panicked "SheetWriter already closed"
  else
    let cellEnd := CellIndex (u64sub sw.maxNCols 1) (u64sub sw.currentIndex 1)
    let sheetEnd :=
      "<dimension ref=\"A1:" ++ cellEnd.1 ++ toString cellEnd.2 ++ "\"/></sheetData>" ++
      (if sw.mergeCellsCount > 0 then
        "<mergeCells count=\"" ++ toString sw.mergeCellsCount ++ "\">" ++
          sw.mergeCells ++ "</mergeCells>"
      else "") ++
      "</worksheet>"
    .ok (sheetEnd, { sw with closed := true })

/-- Render of `TemplateSheetStart` (the worksheet prologue with the column
widths).  The template text lives in the external templating collaborator;
its output content is opaque to the claims, so it is modelled as a function
of the column list only. -/
def sheetStartRender (cols : List Column) : String :=
  "<worksheet cols=" ++ toString (cols.map Column.width) ++ "><sheetData>"

/-- `SheetWriter.WriteHeader` from `src/xlsx.go`: panic when closed, render
the sheet prologue into the sheet entry. -/
def SheetWriter.WriteHeader (sw : SheetWriter) (s : Sheet) : GoResult String :=
  if sw.closed then .panicked "Can not write to closed SheetWriter"
  else .ok (sheetStartRender s.columns)

/-- The archive part names created by `WorkbookWriter.WriteHeader`, in
creation order. -/
def headerPartNames : List String :=
  ["[Content_Types].xml", "docProps/app.xml", "docProps/core.xml",
   "_rels/.rels", "xl/workbook.xml", "xl/_rels/workbook.xml.rels",
   "xl/styles.xml", "xl/sharedStrings.xml"]

/-- Workbook writer state (`WorkbookWriter` in `src/xlsx.go`).  `entries`
records the names of the zip entries created so far, in creation order (the
rendered contents of the header parts come from the external template
collaborator and are not tracked). -/
structure WorkbookWriter where
  entries : List String
  sheetWriter : Option SheetWriter
  headerWritten : Bool
  closed : Bool
  sheetNames : List String
  sharedStrings : List String
  documentInfo : Option DocumentInfo
deriving DecidableEq, Repr

/-- `NewWorkbookWriter` from `src/xlsx.go`:
`&WorkbookWriter{zip.NewWriter(w), nil, false, false, []string{}, nil, nil}`. -/
def NewWorkbookWriter : WorkbookWriter :=
  ⟨[], none, false, false, [], [], none⟩

/-- `WorkbookWriter.WriteHeader` from `src/xlsx.go`: panic when the header
was already written, then create the eight fixed workbook-level parts (the
template renders never fail in this pure model).  Note that the function
does not set `headerWritten`. -/
def WorkbookWriter.WriteHeader (ww : WorkbookWriter) : GoResult WorkbookWriter :=
  if ww.headerWritten then .panicked "Workbook header already written"
  else .ok { ww with entries := ww.entries ++ headerPartNames }

/-- The name of the `N`-th worksheet part. -/
def sheetEntryName (n : Nat) : String :=
  "xl/worksheets/sheet" ++ toString n ++ ".xml"

/-- `WorkbookWriter.NewSheetWriter` from `src/xlsx.go`: panic when closed,
close any previous sheet writer (propagating its error), create the next
worksheet entry, install a fresh `SheetWriter`, adopt the sheet's document
info, write the sheet prologue, and record the sheet title. -/
def WorkbookWriter.NewSheetWriter (ww : WorkbookWriter) (s : Sheet) :
    GoResult (SheetWriter × WorkbookWriter) :=
  if ww.closed then .panicked "Can not write to closed WorkbookWriter"
  else
    let afterClose : GoResult WorkbookWriter :=
      match ww.sheetWriter with
      | some sw =>
          match sw.Close with
          | .error e => .error e
          | .panicked m => .panicked m
          | .ok (_, _) => .ok ww
      | none => .ok ww
    match afterClose with
    | .error e => .error e
    | .panicked m => .panicked m
    | .ok ww1 =>
        let ww2 := { ww1 with entries := ww1.entries ++ [sheetEntryName (ww1.sheetNames.length + 1)] }
        let sw := freshSheetWriter
        let ww3 := { ww2 with documentInfo := some s.documentInfo, sheetWriter := some sw }
        match sw.WriteHeader s with
        | .error e => .error e
        | .panicked m => .panicked m
        | .ok _ =>
            .ok (sw, { ww3 with sheetNames := ww3.sheetNames ++ [s.title] })

/-- `WorkbookWriter.Close` from `src/xlsx.go`: panic when already closed,
close the open sheet writer if any (propagating its error), write the
workbook header when `headerWritten` is still false, then mark the workbook
closed (closing the zip writer never fails in this pure model). -/
def WorkbookWriter.Close (ww : WorkbookWriter) : GoResult WorkbookWriter :=
  if ww.closed then .panicked "WorkbookWriter already closed"
  else
    let afterSW : GoResult WorkbookWriter :=
      match ww.sheetWriter with
      | some sw =>
          match sw.Close with
          | .error e => .error e
          | .panicked m => .panicked m
          | .ok (_, swc) => .ok { ww with sheetWriter := some swc }
      | none => .ok ww
    match afterSW with
    | .error e => .error e
    | .panicked m => .panicked m
    | .ok ww1 =>
        let afterHeader : GoResult WorkbookWriter :=
          if !ww1.headerWritten then ww1.WriteHeader else .ok ww1
        match afterHeader with
        | .error e => .error e
        | .panicked m => .panicked m
        | .ok ww2 => .ok { ww2 with closed := true }

/-- Repeated `NewSheetWriter` calls, one per sheet in the list. -/
def openSheets (ww : WorkbookWriter) : List Sheet → GoResult WorkbookWriter
  | [] => .ok ww
  | s :: rest =>
      match ww.NewSheetWriter s with
      | .error e => .error e
      | .panicked m => .panicked m
      | .ok (_, ww') => openSheets ww' rest

namespace part000

/-- The superseded `Sheet.AppendRow` of `src/unnamed/part_000`: identical to
the `src/xlsx.go` revision except that Datetime cells are resolved at append
time — the value is parsed as RFC 3339 and on success replaced by its
`OADate` rendering, while a parse failure leaves the value unchanged and is
not an error.  (That revision's `Cell` has no `Colspan` field; the shared
`Cell` structure is reused with colspan 0.)  This is the cell loop. -/
def appendRowCell (parse : String → Option GoTime) (t : SST) (c : Cell) :
    Cell × SST :=
  if c.type = CellTypeString then
    let p := intern t (escapeString c.value)
    (⟨c.type, toString p.1, 0⟩, p.2)
  else if c.type = CellTypeDatetime then
    match parse c.value with
    | some d => (⟨c.type, OADate d, 0⟩, t)
    | none => (⟨c.type, c.value, 0⟩, t)
  else
    (⟨c.type, c.value, 0⟩, t)

/-- The cell loop of the superseded `Sheet.AppendRow`. -/
def appendRowCells (parse : String → Option GoTime) (t : SST) :
    List Cell → List Cell × SST
  | [] => ([], t)
  | c :: rest =>
      let s := appendRowCell parse t c
      let q := appendRowCells parse s.2 rest
      (s.1 :: q.1, q.2)

/-- `Sheet.AppendRow` from `src/unnamed/part_000`. -/
def AppendRow (parse : String → Option GoTime) (s : Sheet) (r : Row) :
    GoResult Unit × Sheet :=
  if r.cells.length ≠ s.columns.length then
    (.error (arityErrMsg r.cells.length s.columns.length), s)
  else
    let p := appendRowCells parse s.sst r.cells
    (.ok (), { s with rows := s.rows ++ [⟨p.1⟩], sst := p.2 })

/-- The value stored for a Datetime cell by the `part_000` revision. -/
def dtResolve (parse : String → Option GoTime) (v : String) : String :=
  match parse v with
  | some d => OADate d
  | none => v

end part000

/-- The escaped values of the String cells of a cell list, in order: the
strings that `Sheet.AppendRow` interns for that list. -/
def stringCellEscapes (cells : List Cell) : List String :=
  (cells.filter (fun c => decide (c.type = CellTypeString))).map
    (fun c => escapeString c.value)

/-- A concrete sheet used by closed counterexample and witness statements. -/
def sampleSheet : Sheet := ⟨"Data", [], [], emptySST, ⟨"", "", ⟨0⟩, ⟨0⟩⟩⟩

/-- A concrete one-column sheet used by witness statements. -/
def sampleColSheet : Sheet := ⟨"Data", [⟨"c", 1⟩], [], emptySST, ⟨"", "", ⟨0⟩, ⟨0⟩⟩⟩

end Xlsx

namespace Xlsx

/-! Helper lemmas (shared; none of these is a claim theorem). -/

theorem w64_eq_of_lt {n : Nat} (h : n < 18446744073709551616) : w64 n = n :=
  Nat.mod_eq_of_lt h

theorem resolveCellValue_ne_panicked (parse : String → Option GoTime) (c : Cell)
    (m : String) : resolveCellValue parse c ≠ .panicked m := by
  unfold resolveCellValue
  obtain ⟨t, v, cs⟩ := c
  cases t <;> simp
  cases hp : parse v <;> simp

theorem writeCell_ne_panicked (parse : String → Option GoTime) (sw : SheetWriter)
    (i j : Nat) (c : Cell) (m : String) : writeCell parse sw i j c ≠ .panicked m := by
  unfold writeCell
  cases hr : resolveCellValue parse c
  case ok v =>
    simp only [hr]
    rw [if_neg (Nat.not_lt_zero _)]
    exact fun h => GoResult.noConfusion h
  case error e =>
    simp only [hr]
    exact fun h => GoResult.noConfusion h
  case panicked m2 =>
    exact absurd hr (resolveCellValue_ne_panicked parse c _)

theorem writeCell_ok_proj (parse : String → Option GoTime) (sw : SheetWriter)
    (i j : Nat) (c : Cell) (q : String × SheetWriter)
    (h : writeCell parse sw i j c = .ok q) :
    q.2.currentIndex = sw.currentIndex ∧ q.2.closed = sw.closed ∧
      q.2.maxNCols = sw.maxNCols := by
  unfold writeCell at h
  cases hr : resolveCellValue parse c
  case ok v =>
    simp only [hr] at h
    rw [if_neg (Nat.not_lt_zero _), GoResult.ok.injEq] at h
    subst h
    refine ⟨?_, ?_, ?_⟩ <;> by_cases hc : c.colspan > 1 <;> simp [hc]
  case error e =>
    simp only [hr] at h
    exact GoResult.noConfusion h
  case panicked m =>
    exact absurd hr (resolveCellValue_ne_panicked parse c _)

theorem writeCellsLoop_ne_panicked (parse : String → Option GoTime) (i : Nat)
    (cells : List Cell) :
    ∀ (sw : SheetWriter) (j : Nat) (m : String),
      writeCellsLoop parse sw i j cells ≠ .panicked m := by
  induction cells with
  | nil =>
      intro sw j m h
      unfold writeCellsLoop at h
      exact GoResult.noConfusion h
  | cons c rest ih =>
      intro sw j m h
      unfold writeCellsLoop at h
      cases hw : writeCell parse sw i j c
      case ok q1 =>
        simp only [hw] at h
        cases hl : writeCellsLoop parse q1.2 i (j + 1) rest
        case ok q2 =>
          simp only [hl] at h
          exact GoResult.noConfusion h
        case error e =>
          simp only [hl] at h
          exact GoResult.noConfusion h
        case panicked m2 =>
          exact absurd hl (ih q1.2 (j + 1) m2)
      case error e =>
        simp only [hw] at h
        exact GoResult.noConfusion h
      case panicked m2 =>
        exact absurd hw (writeCell_ne_panicked parse sw i j c m2)

theorem writeCellsLoop_ok_proj (parse : String → Option GoTime) (i : Nat)
    (cells : List Cell) :
    ∀ (sw : SheetWriter) (j : Nat) (q : String × SheetWriter),
      writeCellsLoop parse sw i j cells = .ok q →
      q.2.currentIndex = sw.currentIndex ∧ q.2.closed = sw.closed ∧
        q.2.maxNCols = sw.maxNCols := by
  induction cells with
  | nil =>
      intro sw j q h
      unfold writeCellsLoop at h
      rw [GoResult.ok.injEq] at h
      subst h
      exact ⟨rfl, rfl, rfl⟩
  | cons c rest ih =>
      intro sw j q h
      unfold writeCellsLoop at h
      cases hw : writeCell parse sw i j c
      case ok q1 =>
        simp only [hw] at h
        cases hl : writeCellsLoop parse q1.2 i (j + 1) rest
        case ok q2 =>
          simp only [hl] at h
          rw [GoResult.ok.injEq] at h
          subst h
          obtain ⟨e1, e2, e3⟩ := writeCell_ok_proj parse sw i j c q1 hw
          obtain ⟨f1, f2, f3⟩ := ih q1.2 (j + 1) q2 hl
          exact ⟨f1.trans e1, f2.trans e2, f3.trans e3⟩
        case error e =>
          simp only [hl] at h
          exact GoResult.noConfusion h
        case panicked m =>
          exact absurd hl (writeCellsLoop_ne_panicked parse i rest q1.2 (j + 1) m)
      case error e =>
        simp only [hw] at h
        exact GoResult.noConfusion h
      case panicked m =>
        exact absurd hw (writeCell_ne_panicked parse sw i j c m)

theorem ite_maxNCols_currentIndex (sw : SheetWriter) (n : Nat) :
    (if sw.maxNCols < n then { sw with maxNCols := n } else sw).currentIndex =
      sw.currentIndex := by
  split <;> rfl

theorem ite_maxNCols_closed (sw : SheetWriter) (n : Nat) :
    (if sw.maxNCols < n then { sw with maxNCols := n } else sw).closed = sw.closed := by
  split <;> rfl

theorem writeRowsLoop_ne_panicked (parse : String → Option GoTime) (rows : List Row) :
    ∀ (sw : SheetWriter) (i : Nat) (m : String),
      writeRowsLoop parse sw i rows ≠ .panicked m := by
  induction rows with
  | nil =>
      intro sw i m h
      unfold writeRowsLoop at h
      exact GoResult.noConfusion h
  | cons r rest ih =>
      intro sw i m h
      unfold writeRowsLoop at h
      cases hl : writeCellsLoop parse
          (if sw.maxNCols < r.cells.length then { sw with maxNCols := r.cells.length }
           else sw) i 0 r.cells
      case ok q1 =>
        simp only [hl] at h
        cases hr2 : writeRowsLoop parse q1.2 (i + 1) rest
        case ok q2 =>
          simp only [hr2] at h
          exact GoResult.noConfusion h
        case error e =>
          simp only [hr2] at h
          exact GoResult.noConfusion h
        case panicked m2 =>
          exact absurd hr2 (ih q1.2 (i + 1) m2)
      case error e =>
        simp only [hl] at h
        exact GoResult.noConfusion h
      case panicked m2 =>
        exact absurd hl (writeCellsLoop_ne_panicked parse i r.cells _ 0 m2)

theorem writeRowsLoop_ok_spec (parse : String → Option GoTime) (rows : List Row) :
    ∀ (sw : SheetWriter) (i : Nat) (q : List String × SheetWriter),
      writeRowsLoop parse sw i rows = .ok q →
      q.2.currentIndex = sw.currentIndex ∧ q.2.closed = sw.closed ∧
        ∃ bodies : List String, bodies.length = rows.length ∧
          q.1 = List.zipWith mkRowString
            ((List.range' i rows.length).map
              (fun k => w64 (w64 (k + sw.currentIndex) + 1))) bodies := by
  induction rows with
  | nil =>
      intro sw i q h
      unfold writeRowsLoop at h
      rw [GoResult.ok.injEq] at h
      subst h
      exact ⟨rfl, rfl, [], rfl, rfl⟩
  | cons r rest ih =>
      intro sw i q h
      unfold writeRowsLoop at h
      cases hl : writeCellsLoop parse
          (if sw.maxNCols < r.cells.length then { sw with maxNCols := r.cells.length }
           else sw) i 0 r.cells
      case ok q1 =>
        simp only [hl] at h
        cases hr2 : writeRowsLoop parse q1.2 (i + 1) rest
        case ok q2 =>
          simp only [hr2] at h
          rw [GoResult.ok.injEq] at h
          subst h
          obtain ⟨e1, e2, -⟩ := writeCellsLoop_ok_proj parse i r.cells _ 0 q1 hl
          obtain ⟨f1, f2, bodies, hblen, hbeq⟩ := ih q1.2 (i + 1) q2 hr2
          have key : q1.2.currentIndex = sw.currentIndex :=
            e1.trans (ite_maxNCols_currentIndex sw r.cells.length)
          have keyc : q1.2.closed = sw.closed :=
            e2.trans (ite_maxNCols_closed sw r.cells.length)
          refine ⟨f1.trans key, f2.trans keyc, q1.1 :: bodies, by simp [hblen], ?_⟩
          simp only [List.length_cons, List.range'_succ, List.map_cons,
            List.zipWith_cons_cons]
          rw [hbeq, key]
        case error e =>
          simp only [hr2] at h
          exact GoResult.noConfusion h
        case panicked m =>
          exact absurd hr2 (writeRowsLoop_ne_panicked parse rest q1.2 (i + 1) m)
      case error e =>
        simp only [hl] at h
        exact GoResult.noConfusion h
      case panicked m =>
        exact absurd hl (writeCellsLoop_ne_panicked parse i r.cells _ 0 m)

theorem map_w64_range' :
    ∀ (n i c : Nat), i + n + c < 18446744073709551616 →
      (List.range' i n).map (fun k => w64 (w64 (k + c) + 1)) = List.range' (i + c + 1) n := by
  intro n
  induction n with
  | zero => intro i c _; rfl
  | succ n ih =>
      intro i c h
      simp only [List.range'_succ, List.map_cons]
      rw [w64_eq_of_lt (show i + c < 18446744073709551616 by omega),
        w64_eq_of_lt (show i + c + 1 < 18446744073709551616 by omega),
        ih (i + 1) c (by omega), Nat.add_right_comm i 1 c]

theorem WriteRows_ok_spec (parse : String → Option GoTime) (sw : SheetWriter)
    (rows : List Row) (q : List String × SheetWriter)
    (hc : sw.closed = false) (h : sw.WriteRows parse rows = .ok q) :
    q.2.currentIndex = w64 (sw.currentIndex + rows.length) ∧ q.2.closed = false ∧
      ∃ bodies : List String, bodies.length = rows.length ∧
        q.1 = List.zipWith mkRowString
          ((List.range' 0 rows.length).map
            (fun k => w64 (w64 (k + sw.currentIndex) + 1))) bodies := by
  unfold SheetWriter.WriteRows at h
  rw [hc] at h
  simp only [Bool.false_eq_true, if_false] at h
  cases hl : writeRowsLoop parse sw 0 rows
  case ok q0 =>
    simp only [hl] at h
    rw [GoResult.ok.injEq] at h
    subst h
    obtain ⟨e1, e2, bodies, hblen, hbeq⟩ := writeRowsLoop_ok_spec parse rows sw 0 q0 hl
    exact ⟨by rw [e1], by rw [e2, hc], bodies, hblen, hbeq⟩
  case error e =>
    simp only [hl] at h
    exact GoResult.noConfusion h
  case panicked m =>
    exact absurd hl (writeRowsLoop_ne_panicked parse rows sw 0 m)

theorem writeCellsLoop_error_of_mem (parse : String → Option GoTime) (i : Nat)
    (cells : List Cell) :
    ∀ (sw : SheetWriter) (j : Nat) (c : Cell), c ∈ cells → c.type = CellTypeDatetime →
      parse c.value = none → ∃ e, writeCellsLoop parse sw i j cells = .error e := by
  induction cells with
  | nil =>
      intro sw j c hc
      exact absurd hc (List.not_mem_nil c)
  | cons c0 rest ih =>
      intro sw j c hc ht hp
      cases hw : writeCell parse sw i j c0
      case error e =>
        exact ⟨e, by unfold writeCellsLoop; simp [hw]⟩
      case panicked m =>
        exact absurd hw (writeCell_ne_panicked parse sw i j c0 m)
      case ok q1 =>
        rcases List.mem_cons.mp hc with hceq | hcmem
        · subst hceq
          have hres : resolveCellValue parse c = .error (parseErrMsg c.value) := by
            unfold resolveCellValue
            rw [ht, hp]
          unfold writeCell at hw
          simp only [hres] at hw
          exact GoResult.noConfusion hw
        · obtain ⟨e, he⟩ := ih q1.2 (j + 1) c hcmem ht hp
          exact ⟨e, by unfold writeCellsLoop; simp [hw, he]⟩

theorem writeRowsLoop_error_of_mem (parse : String → Option GoTime) (rows : List Row) :
    ∀ (sw : SheetWriter) (i : Nat) (r : Row) (c : Cell), r ∈ rows → c ∈ r.cells →
      c.type = CellTypeDatetime → parse c.value = none →
      ∃ e, writeRowsLoop parse sw i rows = .error e := by
  induction rows with
  | nil =>
      intro sw i r c hr
      exact absurd hr (List.not_mem_nil r)
  | cons r0 rest ih =>
      intro sw i r c hr hc ht hp
      rcases List.mem_cons.mp hr with hreq | hrmem
      · subst hreq
        obtain ⟨e, he⟩ := writeCellsLoop_error_of_mem parse i r.cells
          (if sw.maxNCols < r.cells.length then { sw with maxNCols := r.cells.length }
           else sw) 0 c hc ht hp
        exact ⟨e, by unfold writeRowsLoop; simp [he]⟩
      · cases hl : writeCellsLoop parse
            (if sw.maxNCols < r0.cells.length then { sw with maxNCols := r0.cells.length }
             else sw) i 0 r0.cells
        case error e =>
          exact ⟨e, by unfold writeRowsLoop; simp [hl]⟩
        case panicked m =>
          exact absurd hl (writeCellsLoop_ne_panicked parse i r0.cells _ 0 m)
        case ok q1 =>
          obtain ⟨e, he⟩ := ih q1.2 (i + 1) r c hrmem hc ht hp
          exact ⟨e, by unfold writeRowsLoop; simp [hl, he]⟩

/-! Claim theorems. -/

/-- C9: the coordinate codec satisfies the spec examples: `colName 0 = "A"`,
`colName 25 = "Z"`, `colName 26 = "AA"`; a cell address is the column name
followed by the decimal rendering of `row + 1` (for row numbers in `uint64`
range); and `cellAddress` yields `"A1"`, `"C3"`, `"AA46"` and `"CVA100001"`
on the four example pairs. -/
theorem coordinate_codec_examples :
    colName 0 = "A" ∧ colName 25 = "Z" ∧ colName 26 = "AA" ∧
    (∀ x y : Nat, y + 1 < 18446744073709551616 →
      cellAddress x y = colName x ++ toString (y + 1)) ∧
    cellAddress 0 0 = "A1" ∧ cellAddress 2 2 = "C3" ∧ cellAddress 26 45 = "AA46" ∧
    cellAddress 2600 100000 = "CVA100001" := by
  refine ⟨by decide, by decide, by decide, ?_, by decide, by decide, by decide, by decide⟩
  intro x y h
  unfold cellAddress CellIndex
  rw [w64_eq_of_lt h]

/-- Witness for C9: the bounded conjunct applied at the concrete pair
`(2600, 100000)`. -/
theorem coordinate_codec_examples_witness :
    cellAddress 2600 100000 = colName 2600 ++ toString (100000 + 1) :=
  coordinate_codec_examples.2.2.2.1 2600 100000 (by decide)

/-- C3: the date codec's epoch is `time.Date(1899, 12, 30, ..., time.UTC)`,
which lies 25569 days before the Unix epoch, and the three spec examples
render as claimed: midnight values as bare integers, non-midnight values
with six digits after the point. -/
theorem oadate_epoch_and_examples :
    oaEpoch = dateUTC 1899 12 30 0 0 0 ∧
    oaEpoch.ns = -2209161600000000000 ∧
    OADate (dateUTC 1970 1 1 0 0 0) = "25569" ∧
    OADate (dateUTC 1970 1 1 12 20 0) = "25569.513889" ∧
    OADate (dateUTC 2014 12 20 0 0 0) = "41993" :=
  ⟨rfl, by decide, by decide, by decide, by decide⟩

/-- C10: closing a `SheetWriter` to which no rows were ever written computes
the dimension end from `maxNCols - 1 = 2^64 - 1` and `currentIndex - 1 =
2^64 - 1` by wrapping `uint64` subtraction; the column name of `2^64 - 1`
wraps to the empty string (its internal increment overflows to zero) and the
row number wraps to `0`, so `Close` succeeds and emits the degenerate
dimension reference `A1:0`. -/
theorem close_fresh_dimension_wrap :
    u64sub 0 1 = 18446744073709551615 ∧
    colName 18446744073709551615 = "" ∧
    CellIndex (u64sub 0 1) (u64sub 0 1) = ("", 0) ∧
    freshSheetWriter.Close =
      .ok ("<dimension ref=\"A1:0\"/></sheetData></worksheet>", ⟨0, 0, true, "", 0⟩) := by
  decide

/-- C7 (code bug): the colspan guard in `WriteRows` compares the `uint64`
colspan against zero with `<`, which can never hold, so a colspan of `0` is
not faulted: the cell is written as an ordinary cell, no merge range is
recorded, and the call returns normally instead of panicking. -/
theorem writeRows_colspan_zero_no_fault :
    freshSheetWriter.WriteRows (fun _ => none) [⟨[⟨CellTypeNumber, "7", 0⟩]⟩] =
      .ok (["<row r=\"1\"><c r=\"A1\" t=\"n\" s=\"1\"><v>7</v></c></row>"],
        ⟨1, 1, false, "", 0⟩) := by
  decide

/-- C1: two successive `WriteRows` batches of sizes `a` and `b` on a fresh
`SheetWriter` emit row elements numbered `1..a` and then `a+1..a+b` — in
order, with no gap or overlap — and `currentIndex` grows by exactly the
batch size after each successful call, acting as the offset for the next
batch's numbering. -/
theorem writeRows_two_batches (parse : String → Option GoTime) (a b : List Row)
    (out1 out2 : List String) (sw1 sw2 : SheetWriter)
    (hlen : a.length + b.length < 18446744073709551616)
    (h1 : freshSheetWriter.WriteRows parse a = .ok (out1, sw1))
    (h2 : sw1.WriteRows parse b = .ok (out2, sw2)) :
    sw1.currentIndex = a.length ∧ sw2.currentIndex = a.length + b.length ∧
    (∃ bodies1 : List String, bodies1.length = a.length ∧
      out1 = List.zipWith mkRowString (List.range' 1 a.length) bodies1) ∧
    (∃ bodies2 : List String, bodies2.length = b.length ∧
      out2 = List.zipWith mkRowString (List.range' (a.length + 1) b.length) bodies2) := by
  obtain ⟨ha1, ha2, bodies1, hb1, he1⟩ :=
    WriteRows_ok_spec parse freshSheetWriter a (out1, sw1) rfl h1
  have hfresh : freshSheetWriter.currentIndex = 0 := rfl
  rw [hfresh] at ha1 he1
  have hsw1 : sw1.currentIndex = a.length := by
    rw [show ((out1, sw1).2 : SheetWriter) = sw1 from rfl] at ha1
    rw [ha1, Nat.zero_add]
    exact w64_eq_of_lt (by omega)
  obtain ⟨ha1b, ha2b, bodies2, hb2, he2⟩ :=
    WriteRows_ok_spec parse sw1 b (out2, sw2) ha2 h2
  rw [hsw1] at ha1b he2
  have hsw2 : sw2.currentIndex = a.length + b.length := by
    rw [show ((out2, sw2).2 : SheetWriter) = sw2 from rfl] at ha1b
    rw [ha1b]
    exact w64_eq_of_lt (by omega)
  refine ⟨hsw1, hsw2, ⟨bodies1, hb1, ?_⟩, ⟨bodies2, hb2, ?_⟩⟩
  · dsimp only at he1
    rw [he1, map_w64_range' a.length 0 0 (by omega)]
  · dsimp only at he2
    rw [he2, map_w64_range' b.length 0 a.length (by omega), Nat.zero_add]

/-- Witness for C1: two concrete one-row batches produce rows numbered 1 and
2 and the expected index advance. -/
theorem writeRows_two_batches_witness :
    (⟨1, 1, false, "", 0⟩ : SheetWriter).currentIndex = 1 ∧
    (⟨2, 1, false, "", 0⟩ : SheetWriter).currentIndex = 1 + 1 ∧
    (∃ bodies1 : List String, bodies1.length = 1 ∧
      ["<row r=\"1\"><c r=\"A1\" t=\"n\" s=\"1\"><v>7</v></c></row>"] =
        List.zipWith mkRowString (List.range' 1 1) bodies1) ∧
    (∃ bodies2 : List String, bodies2.length = 1 ∧
      ["<row r=\"2\"><c r=\"A2\" t=\"n\" s=\"1\"><v>8</v></c></row>"] =
        List.zipWith mkRowString (List.range' (1 + 1) 1) bodies2) := by
  have h := writeRows_two_batches (fun _ => none)
    [⟨[⟨CellTypeNumber, "7", 1⟩]⟩] [⟨[⟨CellTypeNumber, "8", 1⟩]⟩]
    ["<row r=\"1\"><c r=\"A1\" t=\"n\" s=\"1\"><v>7</v></c></row>"]
    ["<row r=\"2\"><c r=\"A2\" t=\"n\" s=\"1\"><v>8</v></c></row>"]
    ⟨1, 1, false, "", 0⟩ ⟨2, 1, false, "", 0⟩
    (by decide) (by decide) (by decide)
  simpa using h

/-- C5: a streaming `WriteRows` batch containing any Datetime cell whose
value fails RFC 3339 parsing returns a propagated error — the raw value is
never substituted or passed through. -/
theorem writeRows_datetime_parse_error (parse : String → Option GoTime)
    (sw : SheetWriter) (rows : List Row) (r : Row) (c : Cell)
    (hclosed : sw.closed = false) (hr : r ∈ rows) (hc : c ∈ r.cells)
    (ht : c.type = CellTypeDatetime) (hp : parse c.value = none) :
    ∃ e, sw.WriteRows parse rows = .error e := by
  obtain ⟨e, he⟩ := writeRowsLoop_error_of_mem parse rows sw 0 r c hr hc ht hp
  refine ⟨e, ?_⟩
  unfold SheetWriter.WriteRows
  rw [hclosed]
  simp [he]

/-- Witness for C5: a single unparseable Datetime cell on a fresh writer. -/
theorem writeRows_datetime_parse_error_witness :
    ∃ e, freshSheetWriter.WriteRows (fun _ => none)
      [⟨[⟨CellTypeDatetime, "bad", 1⟩]⟩] = .error e :=
  writeRows_datetime_parse_error (fun _ => none) freshSheetWriter
    [⟨[⟨CellTypeDatetime, "bad", 1⟩]⟩] ⟨[⟨CellTypeDatetime, "bad", 1⟩]⟩
    ⟨CellTypeDatetime, "bad", 1⟩ rfl (by simp) (by simp) rfl rfl

/-- C6: `AppendRow` on a row whose cell count differs from the sheet's
column count returns the arity error and leaves the sheet — its rows and its
shared-string table — exactly as before the call. -/
theorem appendRow_arity_error (s : Sheet) (r : Row)
    (h : r.cells.length ≠ s.columns.length) :
    s.AppendRow r = (.error (arityErrMsg r.cells.length s.columns.length), s) := by
  simp [Sheet.AppendRow, h]

/-- Witness for C6: a one-cell row against a zero-column sheet. -/
theorem appendRow_arity_error_witness :
    Sheet.AppendRow sampleSheet ⟨[⟨CellTypeNumber, "1", 0⟩]⟩ =
      (.error (arityErrMsg 1 0), sampleSheet) :=
  appendRow_arity_error sampleSheet ⟨[⟨CellTypeNumber, "1", 0⟩]⟩ (by decide)

/-! Shared-string table lemmas (for C2). -/

theorem intern_again (t : SST) (w : String) :
    (intern (intern t w).2 w).1 = (intern t w).1 := by
  cases hl : mapLookup t.map w with
  | some i => simp [intern, hl]
  | none => simp [intern, hl, mapLookup]

theorem intern_fresh (t : SST) (w : String) (h : mapLookup t.map w = none) :
    (intern t w).1 = t.strings.length := by
  simp [intern, h]

theorem intern_strings_mono (t : SST) (w : String) :
    t.strings <+: (intern t w).2.strings := by
  unfold intern
  cases hl : mapLookup t.map w
  case none =>
    simp only [hl]
    exact List.prefix_append _ _
  case some i =>
    simp only [hl]
    exact List.prefix_refl _

theorem internAll_cons (t : SST) (w : String) (ws : List String) :
    internAll t (w :: ws) = internAll (intern t w).2 ws := rfl

theorem internSeq_fresh (ws : List String) :
    ∀ t : SST, (∀ w ∈ ws, mapLookup t.map w = none) → ws.Nodup →
      (internSeq t ws).1 = List.range' t.strings.length ws.length ∧
      (internSeq t ws).2.strings = t.strings ++ ws := by
  induction ws with
  | nil =>
      intro t _ _
      exact ⟨rfl, by simp [internSeq]⟩
  | cons w ws ih =>
      intro t hnone hnd
      have hw : mapLookup t.map w = none := hnone w (List.mem_cons_self w ws)
      have hstep : intern t w =
          (t.strings.length, ⟨(w, t.strings.length) :: t.map, t.strings ++ [w]⟩) := by
        simp [intern, hw]
      have hrest : ∀ w2 ∈ ws, mapLookup ((w, t.strings.length) :: t.map) w2 = none := by
        intro w2 hw2
        have hne : w ≠ w2 := by
          intro hEq
          exact (List.nodup_cons.mp hnd).1 (hEq ▸ hw2)
        rw [show mapLookup ((w, t.strings.length) :: t.map) w2 = mapLookup t.map w2 from
          by simp [mapLookup, hne]]
        exact hnone w2 (List.mem_cons_of_mem w hw2)
      obtain ⟨ih1, ih2⟩ := ih ⟨(w, t.strings.length) :: t.map, t.strings ++ [w]⟩
        hrest (List.nodup_cons.mp hnd).2
      constructor
      · unfold internSeq
        simp only [hstep]
        rw [ih1]
        simp [List.range'_succ, List.length_append]
      · unfold internSeq
        simp only [hstep]
        rw [ih2]
        simp [List.append_assoc]

theorem internSeq_distinct (ws : List String) (h : ws.Nodup) :
    (internSeq emptySST ws).1 = List.range ws.length ∧
    (internSeq emptySST ws).2.strings = ws := by
  obtain ⟨h1, h2⟩ := internSeq_fresh ws emptySST (fun w _ => rfl) h
  constructor
  · rw [h1, List.range_eq_range']
    simp [emptySST]
  · rw [h2]
    simp [emptySST]

theorem internSeq_firstSeen (ws : List String) :
    ∀ t : SST, (∀ w, (mapLookup t.map w).isSome = true ↔ w ∈ t.strings) →
      (internSeq t ws).2.strings = firstSeenAux t.strings ws ∧
      (∀ w, (mapLookup (internSeq t ws).2.map w).isSome = true ↔
        w ∈ (internSeq t ws).2.strings) := by
  induction ws with
  | nil =>
      intro t hinv
      exact ⟨rfl, hinv⟩
  | cons w ws ih =>
      intro t hinv
      cases hl : mapLookup t.map w
      case some i =>
        have hmem : w ∈ t.strings := (hinv w).mp (by simp [hl])
        have hstep : intern t w = (i, t) := by simp [intern, hl]
        obtain ⟨ih1, ih2⟩ := ih t hinv
        constructor
        · unfold internSeq
          simp only [hstep]
          rw [ih1]
          simp only [firstSeenAux]
          rw [if_pos hmem]
        · unfold internSeq
          simp only [hstep]
          exact ih2
      case none =>
        have hnmem : w ∉ t.strings := by
          intro hmem
          have hs := (hinv w).mpr hmem
          rw [hl] at hs
          exact Bool.noConfusion hs
        have hstep : intern t w =
            (t.strings.length, ⟨(w, t.strings.length) :: t.map, t.strings ++ [w]⟩) := by
          simp [intern, hl]
        have hinv2 : ∀ w2, (mapLookup ((w, t.strings.length) :: t.map) w2).isSome = true ↔
            w2 ∈ t.strings ++ [w] := by
          intro w2
          by_cases hEq : w = w2
          · subst hEq
            simp [mapLookup]
          · rw [show mapLookup ((w, t.strings.length) :: t.map) w2 = mapLookup t.map w2 from
              by simp [mapLookup, hEq]]
            rw [hinv w2]
            constructor
            · exact fun hm => List.mem_append.mpr (Or.inl hm)
            · intro hm
              rcases List.mem_append.mp hm with hm | hm
              · exact hm
              · exact absurd (List.mem_singleton.mp hm) (fun hh => hEq hh.symm)
        obtain ⟨ih1, ih2⟩ := ih ⟨(w, t.strings.length) :: t.map, t.strings ++ [w]⟩ hinv2
        constructor
        · unfold internSeq
          simp only [hstep]
          rw [ih1]
          simp only [firstSeenAux]
          rw [if_neg hnmem]
        · unfold internSeq
          simp only [hstep]
          exact ih2

theorem internAll_firstSeen (ws : List String) :
    (internAll emptySST ws).strings = firstSeen ws := by
  obtain ⟨h1, -⟩ := internSeq_firstSeen ws emptySST (by intro w; simp [mapLookup, emptySST])
  exact h1

theorem stringCellEscapes_cons_str (c : Cell) (rest : List Cell)
    (h : c.type = CellTypeString) :
    stringCellEscapes (c :: rest) = escapeString c.value :: stringCellEscapes rest := by
  simp [stringCellEscapes, h]

theorem stringCellEscapes_cons_nonstr (c : Cell) (rest : List Cell)
    (h : ¬c.type = CellTypeString) :
    stringCellEscapes (c :: rest) = stringCellEscapes rest := by
  simp [stringCellEscapes, h]

theorem appendRowCell_sst (t : SST) (c : Cell) :
    (appendRowCell t c).2 =
      if c.type = CellTypeString then (intern t (escapeString c.value)).2 else t := by
  unfold appendRowCell
  by_cases hs : c.type = CellTypeString <;> simp [hs]

theorem appendRowCells_cons_sst (c : Cell) (rest : List Cell) (t : SST) :
    (appendRowCells t (c :: rest)).2 =
      (appendRowCells (if c.type = CellTypeString then
        (intern t (escapeString c.value)).2 else t) rest).2 := by
  rw [show (appendRowCells t (c :: rest)).2 =
    (appendRowCells (appendRowCell t c).2 rest).2 from rfl, appendRowCell_sst]

theorem appendRowCells_prefix (cells : List Cell) :
    ∀ t : SST, t.strings <+: (appendRowCells t cells).2.strings := by
  induction cells with
  | nil =>
      intro t
      exact List.prefix_refl _
  | cons c rest ih =>
      intro t
      rw [appendRowCells_cons_sst]
      by_cases hs : c.type = CellTypeString
      · rw [if_pos hs]
        exact (intern_strings_mono t _).trans (ih _)
      · rw [if_neg hs]
        exact ih t

theorem appendRowCells_sst (cells : List Cell) :
    ∀ t : SST, (appendRowCells t cells).2 = internAll t (stringCellEscapes cells) := by
  induction cells with
  | nil =>
      intro t
      rfl
  | cons c rest ih =>
      intro t
      rw [appendRowCells_cons_sst]
      by_cases hs : c.type = CellTypeString
      · rw [if_pos hs, stringCellEscapes_cons_str c rest hs, internAll_cons]
        exact ih _
      · rw [if_neg hs, stringCellEscapes_cons_nonstr c rest hs]
        exact ih t

theorem appendRow_strings_prefix (s : Sheet) (r : Row) (res : GoResult Unit)
    (s2 : Sheet) (h : s.AppendRow r = (res, s2)) :
    s.sst.strings <+: s2.sst.strings := by
  unfold Sheet.AppendRow at h
  by_cases hl : r.cells.length ≠ s.columns.length
  · rw [if_pos hl, Prod.mk.injEq] at h
    obtain ⟨-, h2⟩ := h
    subst h2
    exact List.prefix_refl _
  · rw [if_neg hl] at h
    dsimp only at h
    rw [Prod.mk.injEq] at h
    obtain ⟨-, h2⟩ := h
    subst h2
    exact appendRowCells_prefix r.cells s.sst

theorem appendRow_sst_internAll (s : Sheet) (r : Row) (s2 : Sheet)
    (h : s.AppendRow r = (.ok (), s2)) :
    s2.sst = internAll s.sst (stringCellEscapes r.cells) := by
  unfold Sheet.AppendRow at h
  by_cases hl : r.cells.length ≠ s.columns.length
  · rw [if_pos hl, Prod.mk.injEq] at h
    exact absurd h.1.symm (fun hh => GoResult.noConfusion hh)
  · rw [if_neg hl] at h
    dsimp only at h
    rw [Prod.mk.injEq] at h
    obtain ⟨-, h2⟩ := h
    subst h2
    exact appendRowCells_sst r.cells s.sst

/-- C2: behaviour of the shared-string table: re-interning an escaped string
returns the same index both times; a fresh string's index is the table
length at the moment of insertion; interning N distinct strings from the
empty table assigns indices 0..N-1 in order and stores the strings in that
order; the table built from any list of strings holds exactly the distinct
strings in first-seen order; interning never removes or reorders entries
(the old sequence is a prefix of the new); `AppendRow` (the table's only
mutator) also only extends the sequence, and its effect on the table is
exactly the sequential interning of the XML-escaped values of the row's
String cells. -/
theorem sharedStrings_table_spec :
    (∀ (t : SST) (w : String), (intern (intern t w).2 w).1 = (intern t w).1) ∧
    (∀ (t : SST) (w : String), mapLookup t.map w = none →
      (intern t w).1 = t.strings.length) ∧
    (∀ ws : List String, ws.Nodup →
      (internSeq emptySST ws).1 = List.range ws.length ∧
      (internSeq emptySST ws).2.strings = ws) ∧
    (∀ ws : List String, (internAll emptySST ws).strings = firstSeen ws) ∧
    (∀ (t : SST) (w : String), t.strings <+: (intern t w).2.strings) ∧
    (∀ (s : Sheet) (r : Row) (res : GoResult Unit) (s2 : Sheet),
      s.AppendRow r = (res, s2) → s.sst.strings <+: s2.sst.strings) ∧
    (∀ (s : Sheet) (r : Row) (s2 : Sheet), s.AppendRow r = (.ok (), s2) →
      s2.sst = internAll s.sst (stringCellEscapes r.cells)) :=
  ⟨intern_again, intern_fresh, internSeq_distinct, internAll_firstSeen,
    intern_strings_mono, appendRow_strings_prefix, appendRow_sst_internAll⟩

/-- Witness for C2: every conjunct of the table specification instantiated
at concrete inputs, with all hypotheses discharged. -/
theorem sharedStrings_table_spec_witness :
    ((intern (intern emptySST "x").2 "x").1 = (intern emptySST "x").1) ∧
    ((intern emptySST "x").1 = emptySST.strings.length) ∧
    ((internSeq emptySST ["a", "b"]).1 = List.range 2 ∧
      (internSeq emptySST ["a", "b"]).2.strings = ["a", "b"]) ∧
    ((internAll emptySST ["a", "b", "a"]).strings = firstSeen ["a", "b", "a"]) ∧
    (emptySST.strings <+: (intern emptySST "x").2.strings) ∧
    (sampleColSheet.sst.strings <+:
      (⟨"Data", [⟨"c", 1⟩], [⟨[⟨CellTypeString, "0", 0⟩]⟩],
        ⟨[("a&amp;b", 0)], ["a&amp;b"]⟩, ⟨"", "", ⟨0⟩, ⟨0⟩⟩⟩ : Sheet).sst.strings) ∧
    ((⟨"Data", [⟨"c", 1⟩], [⟨[⟨CellTypeString, "0", 0⟩]⟩],
        ⟨[("a&amp;b", 0)], ["a&amp;b"]⟩, ⟨"", "", ⟨0⟩, ⟨0⟩⟩⟩ : Sheet).sst =
      internAll sampleColSheet.sst
        (stringCellEscapes [⟨CellTypeString, "a&b", 1⟩])) := by
  refine ⟨sharedStrings_table_spec.1 emptySST "x",
    sharedStrings_table_spec.2.1 emptySST "x" rfl,
    sharedStrings_table_spec.2.2.1 ["a", "b"] (by decide),
    sharedStrings_table_spec.2.2.2.1 ["a", "b", "a"],
    sharedStrings_table_spec.2.2.2.2.1 emptySST "x",
    sharedStrings_table_spec.2.2.2.2.2.1 sampleColSheet ⟨[⟨CellTypeString, "a&b", 1⟩]⟩
      (.ok ()) _ (by decide),
    sharedStrings_table_spec.2.2.2.2.2.2 sampleColSheet ⟨[⟨CellTypeString, "a&b", 1⟩]⟩
      _ (by decide)⟩

/-! Lemmas for the superseded buffered revision (for C4). -/

theorem part000_cells_length (parse : String → Option GoTime) (cells : List Cell) :
    ∀ t : SST, (part000.appendRowCells parse t cells).1.length = cells.length := by
  induction cells with
  | nil =>
      intro t
      rfl
  | cons c rest ih =>
      intro t
      rw [show (part000.appendRowCells parse t (c :: rest)).1 =
        (part000.appendRowCell parse t c).1 ::
          (part000.appendRowCells parse (part000.appendRowCell parse t c).2 rest).1 from rfl]
      simp [ih]

theorem part000_cell_datetime (parse : String → Option GoTime) (t : SST) (c : Cell)
    (ht : c.type = CellTypeDatetime) :
    part000.appendRowCell parse t c =
      (⟨CellTypeDatetime, part000.dtResolve parse c.value, 0⟩, t) := by
  unfold part000.appendRowCell part000.dtResolve
  rw [ht]
  cases hp : parse c.value <;> simp [hp]

theorem part000_cells_get (parse : String → Option GoTime) (cells : List Cell) :
    ∀ (t : SST) (i : Nat) (c : Cell), cells.get? i = some c →
      c.type = CellTypeDatetime →
      (part000.appendRowCells parse t cells).1.get? i =
        some ⟨CellTypeDatetime, part000.dtResolve parse c.value, 0⟩ := by
  induction cells with
  | nil =>
      intro t i c h
      simp [List.get?] at h
  | cons c0 rest ih =>
      intro t i c h ht
      rw [show (part000.appendRowCells parse t (c0 :: rest)).1 =
        (part000.appendRowCell parse t c0).1 ::
          (part000.appendRowCells parse (part000.appendRowCell parse t c0).2 rest).1 from rfl]
      cases i with
      | zero =>
          rw [List.get?_cons_zero] at h
          injection h with h
          subst h
          rw [List.get?_cons_zero, part000_cell_datetime parse t c0 ht]
      | succ n =>
          rw [List.get?_cons_succ] at h
          rw [List.get?_cons_succ]
          exact ih (part000.appendRowCell parse t c0).2 n c h ht

/-- C4: the buffered `AppendRow` of the superseded revision
(`src/unnamed/part_000`, the revision cited for this behaviour): every
accepted row is appended without error, and each Datetime cell's stored
value is the spreadsheet numeric-date string when its value parses as
RFC 3339, and the original string unchanged when parsing fails. -/
theorem part000_appendRow_datetime (parse : String → Option GoTime) (s : Sheet)
    (r : Row) (res : GoResult Unit) (s2 : Sheet)
    (hlen : r.cells.length = s.columns.length)
    (h : part000.AppendRow parse s r = (res, s2)) :
    res = .ok () ∧
    ∃ cs : List Cell, s2.rows = s.rows ++ [⟨cs⟩] ∧ cs.length = r.cells.length ∧
      ∀ (i : Nat) (c : Cell), r.cells.get? i = some c → c.type = CellTypeDatetime →
        cs.get? i = some ⟨CellTypeDatetime, part000.dtResolve parse c.value, 0⟩ := by
  unfold part000.AppendRow at h
  rw [if_neg (fun hne => hne hlen)] at h
  dsimp only at h
  rw [Prod.mk.injEq] at h
  obtain ⟨h1, h2⟩ := h
  subst h2
  exact ⟨h1.symm, (part000.appendRowCells parse s.sst r.cells).1, rfl,
    part000_cells_length parse r.cells s.sst,
    part000_cells_get parse r.cells s.sst⟩

/-- Witness for C4: a two-column sheet, one Datetime cell that parses (to
the Unix epoch, rendered 25569) and one that does not (kept verbatim). -/
theorem part000_appendRow_datetime_witness :
    ((.ok () : GoResult Unit) = .ok ()) ∧
    ∃ cs : List Cell,
      (⟨"Data", [⟨"c", 1⟩, ⟨"d", 1⟩],
        [⟨[⟨CellTypeDatetime, "25569", 0⟩, ⟨CellTypeDatetime, "bad", 0⟩]⟩],
        emptySST, ⟨"", "", ⟨0⟩, ⟨0⟩⟩⟩ : Sheet).rows =
          (⟨"Data", [⟨"c", 1⟩, ⟨"d", 1⟩], [], emptySST,
            ⟨"", "", ⟨0⟩, ⟨0⟩⟩⟩ : Sheet).rows ++ [⟨cs⟩] ∧
      cs.length = 2 ∧
      ∀ (i : Nat) (c : Cell),
        ([⟨CellTypeDatetime, "g", 0⟩, ⟨CellTypeDatetime, "bad", 0⟩] : List Cell).get? i =
          some c →
        c.type = CellTypeDatetime →
        cs.get? i = some ⟨CellTypeDatetime,
          part000.dtResolve (fun v => if v = "g" then some ⟨0⟩ else none) c.value, 0⟩ := by
  have h := part000_appendRow_datetime
    (fun v => if v = "g" then some ⟨0⟩ else none)
    ⟨"Data", [⟨"c", 1⟩, ⟨"d", 1⟩], [], emptySST, ⟨"", "", ⟨0⟩, ⟨0⟩⟩⟩
    ⟨[⟨CellTypeDatetime, "g", 0⟩, ⟨CellTypeDatetime, "bad", 0⟩]⟩
    (.ok ())
    ⟨"Data", [⟨"c", 1⟩, ⟨"d", 1⟩],
      [⟨[⟨CellTypeDatetime, "25569", 0⟩, ⟨CellTypeDatetime, "bad", 0⟩]⟩],
      emptySST, ⟨"", "", ⟨0⟩, ⟨0⟩⟩⟩
    (by decide) (by decide)
  simpa using h

/-! Workbook-writer lemmas (for C8). -/

theorem NewSheetWriter_ok (ww : WorkbookWriter) (s : Sheet)
    (h1 : ww.closed = false)
    (h3 : ∀ sw, ww.sheetWriter = some sw → sw.closed = false) :
    ww.NewSheetWriter s = .ok (freshSheetWriter,
      { ww with
        entries := ww.entries ++ [sheetEntryName (ww.sheetNames.length + 1)],
        documentInfo := some s.documentInfo,
        sheetWriter := some freshSheetWriter,
        sheetNames := ww.sheetNames ++ [s.title] }) := by
  unfold WorkbookWriter.NewSheetWriter
  rw [h1]
  cases hsw : ww.sheetWriter
  case none =>
    simp [h1, hsw, SheetWriter.WriteHeader, freshSheetWriter]
  case some sw =>
    have hswc : sw.closed = false := h3 sw hsw
    simp [h1, hsw, SheetWriter.Close, hswc, SheetWriter.WriteHeader, freshSheetWriter]

theorem openSheets_spec (sheets : List Sheet) :
    ∀ ww : WorkbookWriter, ww.closed = false → ww.headerWritten = false →
      (∀ sw, ww.sheetWriter = some sw → sw.closed = false) →
      ∃ ww1, openSheets ww sheets = .ok ww1 ∧ ww1.closed = false ∧
        ww1.headerWritten = false ∧
        (∀ sw, ww1.sheetWriter = some sw → sw.closed = false) ∧
        ww1.entries = ww.entries ++
          (List.range' (ww.sheetNames.length + 1) sheets.length).map sheetEntryName := by
  induction sheets with
  | nil =>
      intro ww h1 h2 h3
      exact ⟨ww, rfl, h1, h2, h3, by simp⟩
  | cons s rest ih =>
      intro ww h1 h2 h3
      have hnew := NewSheetWriter_ok ww s h1 h3
      obtain ⟨ww1, hopen, i1, i2, i3, i4⟩ := ih
        { ww with
          entries := ww.entries ++ [sheetEntryName (ww.sheetNames.length + 1)],
          documentInfo := some s.documentInfo,
          sheetWriter := some freshSheetWriter,
          sheetNames := ww.sheetNames ++ [s.title] }
        h1 h2
        (by
          intro sw h
          rw [Option.some.injEq] at h
          rw [← h]
          rfl)
      refine ⟨ww1, ?_, i1, i2, i3, ?_⟩
      · unfold openSheets
        simp only [hnew]
        exact hopen
      · rw [i4]
        simp [List.range'_succ, List.append_assoc, List.length_append]

theorem WWClose_ok (ww : WorkbookWriter)
    (h1 : ww.closed = false) (h2 : ww.headerWritten = false)
    (h3 : ∀ sw, ww.sheetWriter = some sw → sw.closed = false) :
    ∃ ww2, ww.Close = .ok ww2 ∧ ww2.entries = ww.entries ++ headerPartNames ∧
      ww2.headerWritten = false ∧ ww2.closed = true := by
  cases hsw : ww.sheetWriter
  case none =>
    refine ⟨{ ww with entries := ww.entries ++ headerPartNames, closed := true },
      ?_, rfl, h2, rfl⟩
    unfold WorkbookWriter.Close WorkbookWriter.WriteHeader
    simp [h1, h2, hsw]
  case some sw =>
    have hswc : sw.closed = false := h3 sw hsw
    refine ⟨⟨ww.entries ++ headerPartNames,
        some ⟨sw.currentIndex, sw.maxNCols, true, sw.mergeCells, sw.mergeCellsCount⟩,
        ww.headerWritten, true, ww.sheetNames, ww.sharedStrings, ww.documentInfo⟩,
      ?_, rfl, h2, rfl⟩
    unfold WorkbookWriter.Close WorkbookWriter.WriteHeader SheetWriter.Close
    simp [h1, h2, hsw, hswc]

/-- C8 counterexample: on a fresh workbook writer, the first `NewSheetWriter`
call creates only the worksheet entry — none of the workbook-level header
parts — and leaves `headerWritten` false (the third field of the resulting
state), contradicting the claim that the header parts are written during the
first `NewSheetWriter` call and that `headerWritten` is then true. -/
theorem newSheetWriter_writes_no_header :
    (NewWorkbookWriter.NewSheetWriter sampleSheet =
      .ok (freshSheetWriter,
        ⟨["xl/worksheets/sheet1.xml"], some freshSheetWriter, false, false, ["Data"], [],
          some ⟨"", "", ⟨0⟩, ⟨0⟩⟩⟩)) ∧
    "[Content_Types].xml" ∉ (["xl/worksheets/sheet1.xml"] : List String) := by
  decide

/-- C8 (amended): the workbook-level header parts are written by `Close`,
always — whether or not any `NewSheetWriter` call preceded it — and never by
`NewSheetWriter`; `headerWritten` remains false after every `NewSheetWriter`
call (nothing ever sets it; it only guards `WriteHeader` itself against a
second direct call).  After any number of `NewSheetWriter` calls on a fresh
workbook writer the archive holds exactly the worksheet entries, and `Close`
then appends exactly the eight header parts once. -/
theorem workbook_header_written_at_close (sheets : List Sheet) :
    ∃ ww1 ww2, openSheets NewWorkbookWriter sheets = .ok ww1 ∧
      ww1.headerWritten = false ∧
      ww1.entries = (List.range' 1 sheets.length).map sheetEntryName ∧
      ww1.Close = .ok ww2 ∧
      ww2.entries = (List.range' 1 sheets.length).map sheetEntryName ++ headerPartNames ∧
      ww2.headerWritten = false ∧ ww2.closed = true := by
  obtain ⟨ww1, hopen, hc, hh, hsw, hent⟩ := openSheets_spec sheets NewWorkbookWriter rfl rfl
    (by intro sw h; exact Option.noConfusion h)
  have hent1 : ww1.entries = (List.range' 1 sheets.length).map sheetEntryName := by
    rw [hent]
    simp [NewWorkbookWriter]
  obtain ⟨ww2, hclose, hent2, hh2, hcl2⟩ := WWClose_ok ww1 hc hh hsw
  refine ⟨ww1, ww2, hopen, hh, hent1, hclose, ?_, hh2, hcl2⟩
  rw [hent2, hent1]
